import Mathlib

/-!
Verification of the in-memory fake filesystem registry
(`src/fake/registry.rs` of `miguelandres/filesystem-rs`).

The registry owns a namespace: a map from absolute paths to nodes
(directory, file or symlink).  We embed paths as lists of components
(the root `/` is `[]`), the `HashMap<PathBuf, Node>` as an association
list with HashMap-faithful insert/remove, and every fallible operation
as a function returning the mutated registry together with an
`Except ErrorKind` outcome (Rust mutates in place, so an operation can
both mutate and return an error; the pair keeps that observable).

`node.rs` is not part of the sources provided; the node structures and
their defaults are modelled from the spec (see the doc comments below).
-/

namespace Fs

/-- A path, as its list of components; the root `/` is `[]`.
Mirrors `std::path::PathBuf` restricted to absolute normal paths. -/
abbrev Path := List String

/-- The error kinds of `std::io::ErrorKind` that `create_error` in
`registry.rs` can be called with. -/
inductive ErrorKind where
  | notFound
  | permissionDenied
  | alreadyExists
  | invalidInput
  | invalidData
  | other
deriving DecidableEq, Repr

/-- Modelled from the spec: `node.rs` is not under `src/`.  §3: a File
carries a permission mode and raw byte content. -/
structure File where
  mode : Nat
  contents : List Nat
deriving DecidableEq, Repr

/-- Modelled from the spec: `node.rs` is not under `src/`.  §3: a
Directory carries only a permission mode. -/
structure Dir where
  mode : Nat
deriving DecidableEq, Repr

/-- Modelled from the spec: `node.rs` is not under `src/`.  §3: a
Symlink carries a permission mode and a stored target path
(`link.source` in `registry.rs`). -/
structure Symlink where
  mode : Nat
  source : Path
deriving DecidableEq, Repr

/-- Modelled from the spec: the tagged union over the three node shapes
(§3). -/
inductive Node where
  | dir : Dir → Node
  | file : File → Node
  | symlink : Symlink → Node
deriving DecidableEq, Repr

/-- Modelled from the spec §4.7: newly created nodes receive a default
permissive mode with read and write bits set (`Dir::new`, `File::new`,
`Symlink::new` in the missing `node.rs`); the concrete octal value only
matters through the `0o444` and `0o222` masks. -/
def DEFAULT_MODE : Nat := 0o644

/-- The mode stored in a node, as read by `descendants`, `readonly`,
`mode` (`registry.rs` lines 447-451, 276-280, 305-309). -/
def Node.mode : Node → Nat
  | .dir d => d.mode
  | .file f => f.mode
  | .symlink l => l.mode

/-- `Registry` (`registry.rs` lines 7-11): the working directory and the
namespace mapping. -/
structure Registry where
  cwd : Path
  files : List (Path × Node)
deriving DecidableEq, Repr

/-- `HashMap::get`: the value at a key. -/
def lookup (l : List (Path × Node)) (p : Path) : Option Node :=
  (l.find? fun kv => kv.1 = p).map (·.2)

/-- `HashMap::insert`: replaces the value if the key is present,
otherwise adds the binding. -/
def mapInsert (l : List (Path × Node)) (p : Path) (n : Node) : List (Path × Node) :=
  if l.any (fun kv => kv.1 = p) then
    l.map fun kv => if kv.1 = p then (p, n) else kv
  else
    l ++ [(p, n)]

/-- `HashMap::remove`: drops the binding at a key. -/
def mapRemove (l : List (Path × Node)) (p : Path) : List (Path × Node) :=
  l.filter fun kv => kv.1 ≠ p

/-- `Path::parent`: the path without its last component; `None` for the
root. -/
def parent : Path → Option Path
  | [] => none
  | p => some p.dropLast

/-- `Registry::new` (lines 14-21): the namespace holds the root
directory only, and the working directory is the root. -/
def Registry.new : Registry :=
  { cwd := [], files := [([], Node.dir ⟨DEFAULT_MODE⟩)] }

/-- `Registry::get` (lines 330-334). -/
def Registry.get (s : Registry) (p : Path) : Except ErrorKind Node :=
  match lookup s.files p with
  | none => .error .notFound
  | some n => .ok n

/-- The loop body of `recurse_symlink` (lines 173-193), with explicit
fuel standing for the while loop; `none` means the fuel ran out, which
`recurseSymlinkAux_sufficient_fuel` below proves never happens at the
fuel used by `Registry.recurseSymlink`. -/
def recurseSymlinkAux (files : List (Path × Node)) :
    Nat → List Path → Path → Option (Except ErrorKind (Node × Path))
  | 0, _, _ => none
  | fuel + 1, visited, p =>
    match lookup files p with
    | none => some (.error .notFound)
    | some (.symlink l) =>
      if p ∈ visited then some (.error .other)
      else recurseSymlinkAux files fuel (p :: visited) l.source
    | some (.dir d) => some (.ok (.dir d, p))
    | some (.file f) => some (.ok (.file f, p))

/-- `Registry::recurse_symlink` (lines 173-193): follow stored symlink
targets, tracking visited paths; a revisit fails with the generic loop
error, a missing terminal with `NotFound`.  The fuel `files.length + 1`
is sufficient (each step visits a fresh key of the map), so the `getD`
default is dead code. -/
def Registry.recurseSymlink (s : Registry) (p : Path) : Except ErrorKind (Node × Path) :=
  (recurseSymlinkAux s.files (s.files.length + 1) [] p).getD (.error .other)

/-- Modelled from the spec §4.1: `Node::is_file` of the missing
`node.rs` answers the type predicate, dereferencing through symlinks via
the registry.  In `rename` it is only ever applied to the terminal node
returned by `recurse_symlink`, which is never a symlink. -/
def Node.is_file (s : Registry) : Node → Bool
  | .file _ => true
  | .dir _ => false
  | .symlink l =>
    match s.recurseSymlink l.source with
    | .ok (.file _, _) => true
    | _ => false

/-- `Registry::get_dir` (lines 342-354). -/
def Registry.getDir (s : Registry) (p : Path) : Except ErrorKind Dir :=
  match lookup s.files p with
  | none => .error .notFound
  | some (.dir d) => .ok d
  | some (.file _) => .error .other
  | some (.symlink _) =>
    match s.recurseSymlink p with
    | .ok (.dir d, _) => .ok d
    | _ => .error .other

/-- `Registry::get_dir_mut` (lines 356-376), returning the path whose
node the caller would mutate.  A directory reached directly must carry
the write bit; one reached through a symlink is accepted without a mode
check (the code resolves and returns it unconditionally). -/
def Registry.getDirMutPath (s : Registry) (p : Path) : Except ErrorKind Path :=
  match lookup s.files p with
  | none => .error .notFound
  | some (.dir d) =>
    if d.mode &&& 0o222 ≠ 0 then .ok p else .error .permissionDenied
  | some (.file _) => .error .other
  | some (.symlink _) =>
    match s.recurseSymlink p with
    | .ok (.dir _, newPath) => .ok newPath
    | _ => .error .other

/-- `Registry::get_file` (lines 378-390). -/
def Registry.getFile (s : Registry) (p : Path) : Except ErrorKind File :=
  match lookup s.files p with
  | none => .error .notFound
  | some (.file f) => .ok f
  | some (.dir _) => .error .other
  | some (.symlink _) =>
    match s.recurseSymlink p with
    | .ok (.file f, _) => .ok f
    | _ => .error .other

/-- `Registry::get_file_mut` (lines 392-412), returning the path whose
file the caller would mutate.  A file reached directly without the
write bit yields kind `Other` (line 396), a directory yields
`PermissionDenied` (line 397); a file reached through a symlink is
accepted without a mode check. -/
def Registry.getFileMutPath (s : Registry) (p : Path) : Except ErrorKind Path :=
  match lookup s.files p with
  | none => .error .notFound
  | some (.file f) =>
    if f.mode &&& 0o222 ≠ 0 then .ok p else .error .other
  | some (.dir _) => .error .permissionDenied
  | some (.symlink _) =>
    match s.recurseSymlink p with
    | .ok (.file _, newPath) => .ok newPath
    | _ => .error .other

/-- `Registry::insert` (lines 414-424): `AlreadyExists` if the key is
taken, else the parent (when the path has one) must pass
`get_dir_mut`, then the binding is stored. -/
def Registry.insert (s : Registry) (p : Path) (n : Node) :
    Registry × Except ErrorKind Unit :=
  if (lookup s.files p).isSome then (s, .error .alreadyExists)
  else
    match parent p with
    | some par =>
      match s.getDirMutPath par with
      | .error e => (s, .error e)
      | .ok _ => ({ s with files := mapInsert s.files p n }, .ok ())
    | none => ({ s with files := mapInsert s.files p n }, .ok ())

/-- `Registry::remove` (lines 426-431): detach and return the node. -/
def Registry.remove (s : Registry) (p : Path) :
    Registry × Except ErrorKind Node :=
  match lookup s.files p with
  | none => (s, .error .notFound)
  | some n => ({ s with files := mapRemove s.files p }, .ok n)

/-- `Registry::descendants` (lines 433-455): after dereferencing a
symlink at the argument, every key strictly prefixed by the resolved
path, with its node's mode. -/
def Registry.descendants (s : Registry) (p : Path) : List (Path × Nat) :=
  let pb :=
    match lookup s.files p with
    | some (.symlink _) =>
      match s.recurseSymlink p with
      | .ok (_, newPath) => newPath
      | .error _ => p
    | _ => p
  (s.files.filter fun kv => pb.isPrefixOf kv.1 ∧ kv.1 ≠ pb).map
    fun kv => (kv.1, kv.2.mode)

/-- `Registry::children` (lines 457-463): the keys whose parent is the
argument. -/
def Registry.children (s : Registry) (p : Path) : List Path :=
  (s.files.filter fun kv => parent kv.1 = some p).map (·.1)

/-- `Registry::create_dir` (lines 49-51). -/
def Registry.createDir (s : Registry) (p : Path) : Registry × Except ErrorKind Unit :=
  s.insert p (.dir ⟨DEFAULT_MODE⟩)

/-- `Registry::create_file` (lines 107-111). -/
def Registry.createFile (s : Registry) (p : Path) (buf : List Nat) :
    Registry × Except ErrorKind Unit :=
  s.insert p (.file ⟨DEFAULT_MODE, buf⟩)

/-- Overwrite the contents of the file node stored at `q` (the effect of
assigning through the `&mut File` returned by `get_file_mut`). -/
def setContents (l : List (Path × Node)) (q : Path) (buf : List Nat) :
    List (Path × Node) :=
  l.map fun kv =>
    if kv.1 = q then
      (kv.1, match kv.2 with
             | .file f => Node.file { f with contents := buf }
             | n => n)
    else kv

/-- `Registry::write_file` (lines 113-123): overwrite through
`get_file_mut`, falling back to `create_file` only when the lookup
failed with `NotFound`. -/
def Registry.writeFile (s : Registry) (p : Path) (buf : List Nat) :
    Registry × Except ErrorKind Unit :=
  match s.getFileMutPath p with
  | .ok q => ({ s with files := setContents s.files q buf }, .ok ())
  | .error e =>
    if e = .notFound then s.createFile p buf else (s, .error e)

/-- `Registry::read_file` (lines 130-136): the resolved file's mode must
grant some read bit. -/
def Registry.readFile (s : Registry) (p : Path) : Except ErrorKind (List Nat) :=
  match s.getFile p with
  | .ok f => if f.mode &&& 0o444 ≠ 0 then .ok f.contents else .error .permissionDenied
  | .error e => .error e

/-- `Registry::remove_file` (lines 156-161). -/
def Registry.removeFile (s : Registry) (p : Path) : Registry × Except ErrorKind Unit :=
  match s.getFile p with
  | .ok _ =>
    match s.remove p with
    | (s', .ok _) => (s', .ok ())
    | (s', .error e) => (s', .error e)
  | .error e => (s, .error e)

/-- `Registry::remove_dir` (lines 74-82): only an empty directory. -/
def Registry.removeDir (s : Registry) (p : Path) : Registry × Except ErrorKind Unit :=
  match s.getDir p with
  | .error e => (s, .error e)
  | .ok _ =>
    if s.descendants p = [] then
      match s.remove p with
      | (s', .ok _) => (s', .ok ())
      | (s', .error e) => (s', .error e)
    else (s, .error .other)

/-- The removal loop of `remove_dir_all` (lines 94-96). -/
def removeList (s : Registry) : List Path → Registry × Except ErrorKind Unit
  | [] => (s, .ok ())
  | q :: qs =>
    match s.remove q with
    | (s', .ok _) => removeList s' qs
    | (s', .error e) => (s', .error e)

/-- `Registry::remove_dir_all` (lines 84-99): readability pre-check over
all descendants before any removal. -/
def Registry.removeDirAll (s : Registry) (p : Path) : Registry × Except ErrorKind Unit :=
  match s.getDirMutPath p with
  | .error e => (s, .error e)
  | .ok _ =>
    let ds := s.descendants p
    if ds.all (fun dm => dm.2 &&& 0o444 ≠ 0) then
      match removeList s (ds.map (·.1)) with
      | (s', .ok _) =>
        match s'.remove p with
        | (s'', .ok _) => (s'', .ok ())
        | (s'', .error e) => (s'', .error e)
      | (s', .error e) => (s', .error e)
    else (s, .error .permissionDenied)

/-- `Registry::readonly` (lines 275-281): the write bits are clear. -/
def Registry.readonly (s : Registry) (p : Path) : Except ErrorKind Bool :=
  match lookup s.files p with
  | none => .error .notFound
  | some n => .ok (n.mode &&& 0o222 = 0)

/-- `set_readonly_mode` (lines 284-290): clear or set the write bits,
leaving the other bits alone (`mode & !0o222` clears exactly the bits of
`mode &&& 0o222`). -/
def setReadonlyMode (mode : Nat) (ro : Bool) : Nat :=
  if ro then mode - (mode &&& 0o222) else mode ||| 0o222

/-- `Registry::set_readonly` (lines 283-302). -/
def Registry.setReadonly (s : Registry) (p : Path) (ro : Bool) :
    Registry × Except ErrorKind Unit :=
  match lookup s.files p with
  | none => (s, .error .notFound)
  | some _ =>
    ({ s with
        files := s.files.map fun kv =>
          if kv.1 = p then
            (kv.1, match kv.2 with
                   | .dir d => Node.dir ⟨setReadonlyMode d.mode ro⟩
                   | .file f => Node.file { f with mode := setReadonlyMode f.mode ro }
                   | .symlink l => Node.symlink { l with mode := setReadonlyMode l.mode ro })
          else kv },
      .ok ())

/-- `Registry::len` (lines 320-328): total; `0` when absent, `4096` for
a directory, `34` for a symlink (no dereference), the content length for
a file. -/
def Registry.len (s : Registry) (p : Path) : Nat :=
  match lookup s.files p with
  | none => 0
  | some (.file f) => f.contents.length
  | some (.dir _) => 4096
  | some (.symlink _) => 34

/-- `Registry::symlink` (lines 483-503): occupied destination is
`AlreadyExists`; otherwise only the literal parent node's readonly flag
is consulted (whatever the parent's node type), and the symlink is
stored directly in the map, bypassing `insert`. -/
def Registry.symlinkOp (s : Registry) (src dst : Path) :
    Registry × Except ErrorKind Unit :=
  if (s.get dst).isOk then (s, .error .alreadyExists)
  else
    match parent dst with
    | none => (s, .error .notFound)
    | some par =>
      match s.readonly par with
      | .ok true => (s, .error .permissionDenied)
      | .ok false =>
        ({ s with files := mapInsert s.files dst (.symlink ⟨DEFAULT_MODE, src⟩) }, .ok ())
      | .error _ => (s, .error .notFound)

/-- `Path::strip_prefix(from).unwrap_or(&child)` followed by
`to.join(stem)` (lines 474-475). -/
def stripPrefixOr (c base : Path) : Path :=
  if base.isPrefixOf c then c.drop base.length else c

/-- `Registry::rename_path` (lines 465-468): detach the node at the old
key and insert it at the new one (the detach persists even if the insert
then fails, as in the Rust original). -/
def Registry.renamePath (s : Registry) (f t : Path) : Registry × Except ErrorKind Unit :=
  match s.remove f with
  | (s₁, .error e) => (s₁, .error e)
  | (s₁, .ok n) => s₁.insert t n

/-- The three mutually recursive entry points of the rename machinery:
`rename` itself (lines 195-273), `move_dir` (lines 470-481), and
`move_dir`'s loop over the previously computed children list.  They are
defunctionalised into one fuel-indexed function because the Rust
recursion is genuinely unbounded (e.g. renaming a directory into one of
its own descendants recurses forever), so only a fuel semantics is
faithful. -/
inductive RCall where
  | ren (f t : Path)
  | mvDir (f t : Path)
  | mvChildren (f t : Path) (cs : List Path)

/-- One fuel-indexed step function covering `rename`, `move_dir` and
`move_dir`'s child loop; `none` means the fuel ran out.  The `.ren` arm
transcribes the `match (self.get(from), self.get(to))` of lines 196-272
arm by arm, inlining Rust's guard fall-through (a pattern whose guard
fails falls to the catch-all arms of lines 262-266) and the early
return of `?` inside guards. -/
def renameF : Nat → Registry → RCall → Option (Registry × Except ErrorKind Unit)
  | 0, _, _ => none
  | fuel + 1, s, c =>
    match c with
    | .mvDir f t =>
      -- move_dir, lines 470-481: rename_path, then the loop over
      -- children(from) computed once after the key swap.
      match s.renamePath f t with
      | (s₁, .error e) => some (s₁, .error e)
      | (s₁, .ok _) => renameF fuel s₁ (.mvChildren f t (s₁.children f))
    | .mvChildren f t cs =>
      match cs with
      | [] => some (s, .ok ())
      | c' :: rest =>
        match renameF fuel s (.ren c' (t ++ stripPrefixOr c' f)) with
        | none => none
        | some (s', .error e) => some (s', .error e)
        | some (s', .ok _) => renameF fuel s' (.mvChildren f t rest)
    | .ren f t =>
      match lookup s.files f, lookup s.files t with
      | some (.file _), some (.file _) =>          -- line 197
        match s.removeFile t with
        | (s₁, .ok _) => some (s₁.renamePath f t)
        | (s₁, .error e) => some (s₁, .error e)
      | some (.file _), none =>                    -- line 201
        some (s.renamePath f t)
      | some (.dir _), some (.dir _) =>            -- lines 204, 266
        if s.descendants t = [] then
          match s.remove t with
          | (s₁, .ok _) => renameF fuel s₁ (.mvDir f t)
          | (s₁, .error e) => some (s₁, .error e)
        else some (s, .error .other)
      | some (.file _), some (.symlink _) =>       -- lines 208, 263
        match s.recurseSymlink t with
        | .error e => some (s, .error e)
        | .ok (n, _) =>
          if n.is_file s then
            match s.remove t with
            | (s₁, .ok _) => some (s₁.renamePath f t)
            | (s₁, .error e) => some (s₁, .error e)
          else some (s, .error .other)
      | some (.dir _), some (.symlink _) =>        -- lines 214-220
        match s.recurseSymlink t with
        | .error e => some (s, .error e)
        | .ok (.dir _, path) =>
          if s.descendants path = [] then
            match s.remove t with
            | (s₁, .ok _) => renameF fuel s₁ (.mvDir f t)
            | (s₁, .error e) => some (s₁, .error e)
          else some (s, .error .other)
        | .ok (_, _) => some (s, .error .other)
      | some (.symlink _), some (.file _) =>       -- lines 221, 264
        match s.recurseSymlink f with
        | .error e => some (s, .error e)
        | .ok (n, _) =>
          if n.is_file s then
            match s.remove t with
            | (s₁, .ok _) => some (s₁.renamePath f t)
            | (s₁, .error e) => some (s₁, .error e)
          else some (s, .error .other)
      | some (.symlink _), some (.dir _) =>        -- lines 227-233
        match s.recurseSymlink f with
        | .error e => some (s, .error e)
        | .ok (.dir _, _) =>
          if s.descendants t = [] then
            match s.remove t with
            | (s₁, .ok _) => renameF fuel s₁ (.mvDir f t)
            | (s₁, .error e) => some (s₁, .error e)
          else some (s, .error .other)
        | .ok (_, _) => some (s, .error .other)
      | some (.symlink _), some (.symlink _) =>    -- lines 234-261
        match s.recurseSymlink f, s.recurseSymlink t with
        | .ok _, .error .notFound =>               -- line 236
          some (s.renamePath f t)
        | .error .notFound, .ok (.file _, _) =>    -- line 239
          match s.removeFile t with
          | (s₁, .ok _) => some (s₁.renamePath f t)
          | (s₁, .error e) => some (s₁, .error e)
        | .error e, _ => some (s, .error e)        -- line 243
        | .ok (.file _, _), .ok (.file _, _) =>    -- line 244
          match s.remove t with
          | (s₁, .ok _) => some (s₁.renamePath f t)
          | (s₁, .error e) => some (s₁, .error e)
        | .ok (.dir _, _), .ok (.dir _, path) =>   -- line 248
          if s.descendants path = [] then
            match s.remove t with
            | (s₁, .ok _) => some (s₁.renamePath f t)
            | (s₁, .error e) => some (s₁, .error e)
          else some (s, .error .other)
        | _, _ => some (s, .error .other)          -- lines 256-259
      | some (.file _), some (.dir _) => some (s, .error .other)   -- line 262
      | some (.dir _), some (.file _) => some (s, .error .other)   -- line 265
      | some (.dir _), none =>                     -- line 267
        renameF fuel s (.mvDir f t)
      | none, _ => some (s, .error .notFound)      -- line 270
      | some (.symlink _), none => some (s, .error .notFound)      -- line 271

/-- `Registry::rename` (lines 195-273), at a given fuel. -/
def Registry.rename (fuel : Nat) (s : Registry) (f t : Path) :
    Option (Registry × Except ErrorKind Unit) :=
  renameF fuel s (.ren f t)

/-! ## Concrete scenario plumbing -/

/-- Run one mutating operation, keeping the state only on success. -/
def run (s : Option Registry) (op : Registry → Registry × Except ErrorKind Unit) :
    Option Registry :=
  s.bind fun s₀ =>
    match op s₀ with
    | (s₁, .ok _) => some s₁
    | (_, .error _) => none

/-- A registry reachable from `Registry::new` through public operations
only, in which the key `/b/s/y` sits below the directory `/b` but its
parent key `/b/s` holds a symlink (the file was created through the
symlink, which stores the literal path). -/
def c1Pre : Option Registry :=
  run (run (run (run (run (run (run (run (run (run (some Registry.new)
    (·.createDir ["c"])) (·.createDir ["b"])) (·.symlinkOp ["c"] ["b", "s"]))
    (·.createFile ["b", "s", "y"] [104, 105])) (·.removeDir ["c"]))
    (·.createFile ["c"] [122])) (·.createDir ["e"])) (·.symlinkOp ["e"] ["d"]))
    (·.createFile ["d", "s"] [113])) (·.removeDir ["d"])

/-- Registry with a read-write file at `/x.txt` holding `"old"`. -/
def c3S : Registry :=
  { cwd := [], files := [([], .dir ⟨0o644⟩), (["x.txt"], .file ⟨0o644, [111, 108, 100]⟩)] }

/-- Registry whose key `/f` holds a regular read-write file. -/
def c5S : Registry :=
  { cwd := [], files := [([], .dir ⟨0o644⟩), (["f"], .file ⟨0o644, []⟩)] }

/-- Registry with a two-step symlink cycle `/a → /b → /a`. -/
def c6S : Registry :=
  { cwd := [],
    files := [([], .dir ⟨0o644⟩), (["a"], .symlink ⟨0o644, ["b"]⟩),
              (["b"], .symlink ⟨0o644, ["a"]⟩)] }

/-- Registry with a readable directory `/a` whose descendant `/a/f` has
every read bit clear. -/
def c2S : Registry :=
  { cwd := [],
    files := [([], .dir ⟨0o644⟩), (["a"], .dir ⟨0o644⟩),
              (["a", "f"], .file ⟨0, [7]⟩)] }

/-- Registry with a symlink `/p` to a file `/t`. -/
def c8S : Registry :=
  { cwd := [],
    files := [([], .dir ⟨0o644⟩), (["p"], .symlink ⟨0o644, ["t"]⟩),
              (["t"], .file ⟨0o644, [5]⟩)] }

/-- Registry with a dangling symlink at `/a`. -/
def c10S : Registry :=
  { cwd := [], files := [([], .dir ⟨0o644⟩), (["a"], .symlink ⟨0o644, ["b"]⟩)] }

/-- The claims' "the path resolves, after symlink indirection, to a
writable directory": either the path holds a directory whose write bit
is set, or it holds a symlink whose resolution lands on such a
directory. -/
def resolvesToWritableDir (s : Registry) (p : Path) : Prop :=
  (∃ d : Dir, lookup s.files p = some (.dir d) ∧ d.mode &&& 0o222 ≠ 0) ∨
  (∃ (l : Symlink) (d : Dir) (q : Path),
    lookup s.files p = some (.symlink l) ∧
    s.recurseSymlink p = .ok (.dir d, q) ∧ d.mode &&& 0o222 ≠ 0)

/-! ## Helper lemmas -/

/-- `lookup` on a cons, as an if. -/
theorem lookup_cons (hd : Path × Node) (tl : List (Path × Node)) (q : Path) :
    lookup (hd :: tl) q = if hd.1 = q then some hd.2 else lookup tl q := by
  by_cases h : hd.1 = q
  · simp [lookup, List.find?_cons_of_pos, h]
  · simp [lookup, List.find?_cons_of_neg, h]

/-- `lookup` on the empty list. -/
theorem lookup_nil (q : Path) : lookup [] q = none := rfl

/-- A successful lookup exhibits the binding as a member of the list. -/
theorem lookup_mem {l : List (Path × Node)} {a : Path} {x : Node}
    (h : lookup l a = some x) : (a, x) ∈ l := by
  induction l with
  | nil => simp [lookup_nil] at h
  | cons hd tl ih =>
    rw [lookup_cons] at h
    by_cases hk : hd.1 = a
    · rw [if_pos hk] at h
      have hhd : hd = (a, x) := by
        obtain ⟨k1, k2⟩ := hd
        simp only [Option.some.injEq] at h
        simp only at hk
        simp [hk, h]
      rw [hhd]
      exact List.mem_cons_self _ _
    · rw [if_neg hk] at h
      exact List.mem_cons_of_mem _ (ih h)

/-- Two successful lookups at distinct keys force at least two
entries. -/
theorem two_le_length_of_lookup_ne {l : List (Path × Node)} {a b : Path}
    {x y : Node} (ha : lookup l a = some x) (hb : lookup l b = some y)
    (hab : a ≠ b) : 2 ≤ l.length := by
  have h1 : (a, x) ∈ l := lookup_mem ha
  have h2 : (b, y) ∈ l := lookup_mem hb
  cases l with
  | nil => simp at h1
  | cons hd tl =>
    by_cases hh : hd = (a, x)
    · have : (b, y) ∈ tl := by
        rcases List.mem_cons.mp h2 with h | h
        · exfalso; apply hab; rw [hh] at h
          exact (congrArg Prod.fst h.symm)
        · exact h
      have := List.length_pos_of_mem this
      simp only [List.length_cons]
      omega
    · have : (a, x) ∈ tl := by
        rcases List.mem_cons.mp h1 with h | h
        · exact absurd h.symm hh
        · exact h
      have := List.length_pos_of_mem this
      simp only [List.length_cons]
      omega

/-- The replacement pass of `mapInsert`, when the key is present. -/
theorem lookup_map_replace (l : List (Path × Node)) (p : Path) (n : Node)
    (h : l.any (fun kv => decide (kv.1 = p)) = true) :
    lookup (l.map fun kv => if kv.1 = p then (p, n) else kv) p = some n := by
  induction l with
  | nil => simp at h
  | cons hd tl ih =>
    by_cases hk : hd.1 = p
    · rw [List.map_cons, if_pos hk, lookup_cons]
      simp
    · rw [List.map_cons, if_neg hk, lookup_cons, if_neg hk]
      apply ih
      rcases List.any_eq_true.mp h with ⟨kv, hkv, hkvp⟩
      rcases List.mem_cons.mp hkv with rfl | hmem
      · exact absurd (of_decide_eq_true hkvp) hk
      · exact List.any_eq_true.mpr ⟨kv, hmem, hkvp⟩

/-- The append pass of `mapInsert`, when the key is absent. -/
theorem lookup_append_fresh (l : List (Path × Node)) (p : Path) (n : Node)
    (h : ¬(l.any (fun kv => decide (kv.1 = p)) = true)) :
    lookup (l ++ [(p, n)]) p = some n := by
  induction l with
  | nil => rw [List.nil_append, lookup_cons]; simp
  | cons hd tl ih =>
    have hk : ¬(hd.1 = p) := fun hkp =>
      h (List.any_eq_true.mpr ⟨hd, List.mem_cons_self _ _, decide_eq_true hkp⟩)
    rw [List.cons_append, lookup_cons, if_neg hk]
    apply ih
    intro hany
    rcases List.any_eq_true.mp hany with ⟨kv, hkv, hkvp⟩
    exact h (List.any_eq_true.mpr ⟨kv, List.mem_cons_of_mem _ hkv, hkvp⟩)

/-- `mapInsert` makes the inserted binding visible. -/
theorem lookup_mapInsert_self (l : List (Path × Node)) (p : Path) (n : Node) :
    lookup (mapInsert l p n) p = some n := by
  unfold mapInsert
  by_cases h : l.any (fun kv => decide (kv.1 = p)) = true
  · rw [if_pos h]; exact lookup_map_replace l p n h
  · rw [if_neg h]; exact lookup_append_fresh l p n h

/-- `mapRemove` leaves lookups at other keys alone. -/
theorem lookup_mapRemove_ne (l : List (Path × Node)) (p q : Path)
    (h : q ≠ p) : lookup (mapRemove l p) q = lookup l q := by
  unfold mapRemove
  induction l with
  | nil => rfl
  | cons hd tl ih =>
    by_cases hk : hd.1 = p
    · have hpred : ¬((fun kv : Path × Node => decide (kv.1 ≠ p)) hd = true) := by
        simp [hk]
      rw [@List.filter_cons_of_neg _ (fun kv : Path × Node => decide (kv.1 ≠ p)) hd tl hpred,
        lookup_cons, if_neg (fun hqq : hd.1 = q => h (hk ▸ hqq).symm)]
      exact ih
    · have hpred : ((fun kv : Path × Node => decide (kv.1 ≠ p)) hd = true) := by
        simp [hk]
      rw [@List.filter_cons_of_pos _ (fun kv : Path × Node => decide (kv.1 ≠ p)) hd tl hpred,
        lookup_cons, lookup_cons]
      by_cases hq : hd.1 = q
      · rw [if_pos hq, if_pos hq]
      · rw [if_neg hq, if_neg hq]; exact ih

/-- A path satisfying `resolvesToWritableDir` passes `get_dir_mut`. -/
theorem getDirMutPath_ok {s : Registry} {p : Path}
    (h : resolvesToWritableDir s p) : ∃ q, s.getDirMutPath p = .ok q := by
  rcases h with ⟨d, hl, hm⟩ | ⟨l, d, q, hl, hr, _⟩
  · exact ⟨p, by simp [Registry.getDirMutPath, hl, hm]⟩
  · exact ⟨q, by simp [Registry.getDirMutPath, hl, hr]⟩

/-! ## Claim theorems -/

/-- C1 (code bug): on a registry reachable from `Registry::new` by
public operations, `/b` holds a directory, `/d` is absent, and
`rename(/b, /d)` returns `Ok`, yet the descendant `/b/s/y` of `/b` is
left in place and `/d/s/y` does not exist afterwards: `move_dir` walks
only keys reachable through present parent keys, so a key whose parent
key holds a symlink is never re-keyed, contradicting the claim (and
spec §4.6's "every affected path key is rewritten"). -/
theorem claim1_rename_leaves_descendant :
    ∃ s₀ s₁ : Registry,
      c1Pre = some s₀ ∧
      lookup s₀.files ["b"] = some (.dir ⟨DEFAULT_MODE⟩) ∧
      lookup s₀.files ["d"] = none ∧
      (["b", "s", "y"], DEFAULT_MODE) ∈ s₀.descendants ["b"] ∧
      lookup s₀.files ["b", "s", "y"] = some (.file ⟨DEFAULT_MODE, [104, 105]⟩) ∧
      Registry.rename 30 s₀ ["b"] ["d"] = some (s₁, .ok ()) ∧
      lookup s₁.files ["b", "s", "y"] = some (.file ⟨DEFAULT_MODE, [104, 105]⟩) ∧
      lookup s₁.files ["d", "s", "y"] = none :=
  ⟨_, _, rfl, rfl, rfl, by decide, rfl, rfl, rfl, rfl⟩

/-- C3 (code bug): after `set_readonly(/x.txt, true)` succeeds,
`write_file(/x.txt, "new")` fails leaving the state unchanged and
`read_file` still returns the original contents — but the error kind is
`Other` (from `get_file_mut`, line 396), not the `PermissionDenied` the
claim states. -/
theorem claim3_readonly_write_gives_other :
    ∃ s₁ : Registry,
      c3S.setReadonly ["x.txt"] true = (s₁, .ok ()) ∧
      s₁.writeFile ["x.txt"] [110, 101, 119] = (s₁, .error .other) ∧
      ErrorKind.other ≠ ErrorKind.permissionDenied ∧
      s₁.readFile ["x.txt"] = .ok [111, 108, 100] :=
  ⟨_, rfl, rfl, by decide, rfl⟩

/-- C4 (code bug): on the freshly created registry, `remove_dir("/")`
returns `Ok` and deletes the root entry — `descendants("/")` is empty
and `remove` has no root guard — contradicting the claim that the root
is never removed. -/
theorem claim4_remove_root_succeeds :
    Registry.new.removeDir [] = ({ cwd := [], files := [] }, .ok ()) ∧
    lookup (Registry.new.removeDir []).1.files [] = none :=
  ⟨rfl, rfl⟩

/-- C5 (code bug): `symlink(/t, /f/s)` succeeds although the parent
`/f` of the new key holds a regular file, not a directory: `symlink`
only consults the literal parent node's readonly flag (lines 492-502),
bypassing the `insert`/`get_dir_mut` parent check the claim requires. -/
theorem claim5_symlink_under_file_parent :
    lookup c5S.files ["f"] = some (.file ⟨0o644, []⟩) ∧
    parent ["f", "s"] = some ["f"] ∧
    ∃ s₁ : Registry,
      c5S.symlinkOp ["t"] ["f", "s"] = (s₁, .ok ()) ∧
      lookup s₁.files ["f", "s"] = some (.symlink ⟨DEFAULT_MODE, ["t"]⟩) :=
  ⟨rfl, rfl, _, rfl, rfl⟩

/-- C2: if the path resolves (after symlink indirection) to a writable
directory and some descendant's mode has every read bit of `0o444`
clear, `remove_dir_all` fails with `PermissionDenied` and the registry
— in particular the namespace mapping — is exactly what it was: the
readability scan precedes every removal. -/
theorem claim2_remove_dir_all_unreadable_descendant (s : Registry) (p : Path)
    (h1 : resolvesToWritableDir s p) (q : Path) (m : Nat)
    (h2 : (q, m) ∈ s.descendants p) (h3 : m &&& 0o444 = 0) :
    s.removeDirAll p = (s, .error .permissionDenied) := by
  obtain ⟨r, hr⟩ := getDirMutPath_ok h1
  have hall : ((s.descendants p).all fun dm => decide (dm.2 &&& 0o444 ≠ 0)) = false := by
    rcases Bool.eq_false_or_eq_true ((s.descendants p).all fun dm => decide (dm.2 &&& 0o444 ≠ 0))
      with ht | hf
    · exfalso
      have := List.all_eq_true.mp ht (q, m) h2
      exact (of_decide_eq_true this) h3
    · exact hf
  simp only [Registry.removeDirAll, hr]
  rw [hall]
  simp

/-- Witness for C2: a readable, writable directory `/a` with an
unreadable descendant file `/a/f`. -/
theorem claim2_witness :
    c2S.removeDirAll ["a"] = (c2S, .error .permissionDenied) :=
  claim2_remove_dir_all_unreadable_descendant c2S ["a"]
    (Or.inl ⟨⟨0o644⟩, rfl, by decide⟩) ["a", "f"] 0 (by decide) (by decide)

/-- C7: writing bytes to a fresh path whose parent resolves to a
writable directory succeeds by creating the file (with the permissive
default mode), and reading the path back returns exactly the bytes
written. -/
theorem claim7_write_read_roundtrip (s : Registry) (par : Path) (name : String)
    (buf : List Nat)
    (habs : lookup s.files (par ++ [name]) = none)
    (hpar : resolvesToWritableDir s par) :
    s.writeFile (par ++ [name]) buf =
      ({ s with files := mapInsert s.files (par ++ [name]) (.file ⟨DEFAULT_MODE, buf⟩) },
        .ok ()) ∧
    Registry.readFile
      { s with files := mapInsert s.files (par ++ [name]) (.file ⟨DEFAULT_MODE, buf⟩) }
      (par ++ [name]) = .ok buf := by
  have hparent : parent (par ++ [name]) = some par := by
    simp [parent, List.dropLast_concat]
  obtain ⟨r, hr⟩ := getDirMutPath_ok hpar
  constructor
  · simp [Registry.writeFile, Registry.getFileMutPath, habs, Registry.createFile,
      Registry.insert, hparent, hr]
  · simp [Registry.readFile, Registry.getFile, lookup_mapInsert_self, DEFAULT_MODE]

/-- Witness for C7 on the fresh registry. -/
theorem claim7_witness :
    Registry.new.writeFile ["f"] [9, 8] =
      ({ Registry.new with
          files := mapInsert Registry.new.files ["f"] (.file ⟨DEFAULT_MODE, [9, 8]⟩) },
        .ok ()) ∧
    Registry.readFile
      { Registry.new with
          files := mapInsert Registry.new.files ["f"] (.file ⟨DEFAULT_MODE, [9, 8]⟩) }
      ["f"] = .ok [9, 8] :=
  claim7_write_read_roundtrip Registry.new [] "f" [9, 8] rfl
    (Or.inl ⟨⟨DEFAULT_MODE⟩, rfl, by decide⟩)

/-- The value of a successful `recurse_symlink` loop is the node stored
at the returned canonical path. -/
theorem recurseSymlinkAux_ok_lookup (files : List (Path × Node)) :
    ∀ (fuel : Nat) (visited : List Path) (p : Path) (n : Node) (q : Path),
      recurseSymlinkAux files fuel visited p = some (.ok (n, q)) →
      lookup files q = some n := by
  intro fuel
  induction fuel with
  | zero => intro visited p n q h; simp [recurseSymlinkAux] at h
  | succ fuel ih =>
    intro visited p n q h
    rw [recurseSymlinkAux] at h
    cases hl : lookup files p with
    | none => rw [hl] at h; simp at h
    | some node =>
      rw [hl] at h
      cases node with
      | dir d =>
        simp only [Option.some.injEq, Except.ok.injEq, Prod.mk.injEq] at h
        obtain ⟨h1, h2⟩ := h
        rw [← h1, ← h2]
        exact hl
      | file f =>
        simp only [Option.some.injEq, Except.ok.injEq, Prod.mk.injEq] at h
        obtain ⟨h1, h2⟩ := h
        rw [← h1, ← h2]
        exact hl
      | symlink l =>
        by_cases hv : p ∈ visited
        · simp [hv] at h
        · simp only [hv, if_false, if_neg] at h
          exact ih _ _ _ _ h

/-- Canonical-path version of the previous lemma for the public
`recurse_symlink`. -/
theorem recurseSymlink_ok_lookup {s : Registry} {p : Path} {n : Node} {q : Path}
    (h : s.recurseSymlink p = .ok (n, q)) : lookup s.files q = some n := by
  unfold Registry.recurseSymlink at h
  cases haux : recurseSymlinkAux s.files (s.files.length + 1) [] p with
  | none => rw [haux] at h; simp [Option.getD] at h
  | some r =>
    rw [haux] at h
    simp [Option.getD] at h
    exact recurseSymlinkAux_ok_lookup s.files _ _ _ _ _ (by rw [haux, h])

/-- C8: removing a path that holds a symlink whose chain resolves to a
file stored at a different path removes exactly the symlink entry; the
file node at the resolved path keeps its contents and mode. -/
theorem claim8_remove_file_symlink (s : Registry) (P : Path) (l : Symlink)
    (f : File) (T : Path)
    (hP : lookup s.files P = some (.symlink l))
    (hres : s.recurseSymlink P = .ok (.file f, T)) :
    s.removeFile P = ({ s with files := mapRemove s.files P }, .ok ()) ∧
    lookup (mapRemove s.files P) T = some (.file f) ∧ T ≠ P := by
  have hT : lookup s.files T = some (.file f) := recurseSymlink_ok_lookup hres
  have hTP : T ≠ P := by
    intro hEq
    rw [hEq, hP] at hT
    simp at hT
  refine ⟨?_, ?_, hTP⟩
  · simp [Registry.removeFile, Registry.getFile, Registry.remove, hP, hres]
  · rw [lookup_mapRemove_ne _ _ _ hTP]; exact hT

/-- Witness for C8: `/p` is a symlink to the file `/t`. -/
theorem claim8_witness :
    c8S.removeFile ["p"] = ({ c8S with files := mapRemove c8S.files ["p"] }, .ok ()) ∧
    lookup (mapRemove c8S.files ["p"]) ["t"] = some (.file ⟨0o644, [5]⟩) ∧
    (["t"] : Path) ≠ ["p"] :=
  claim8_remove_file_symlink c8S ["p"] ⟨0o644, ["t"]⟩ ⟨0o644, [5]⟩ ["t"] rfl rfl

/-- A pointwise-stronger filter keeps at most as many elements. -/
theorem length_filter_mono (l : List (Path × Node)) (P Q : Path × Node → Bool)
    (h : ∀ kv, P kv = true → Q kv = true) :
    (l.filter P).length ≤ (l.filter Q).length := by
  induction l with
  | nil => simp
  | cons hd tl ih =>
    rw [List.filter_cons, List.filter_cons]
    cases hP : P hd with
    | true =>
      have hQ := h hd hP
      simp only [hP, hQ, if_true, List.length_cons]
      omega
    | false =>
      cases hQ : Q hd with
      | true =>
        simp only [hP, hQ, if_true, List.length_cons]
        simp only [Bool.false_eq_true, if_false]
        omega
      | false =>
        simp only [hP, hQ, Bool.false_eq_true, if_false]
        exact ih

/-- A pointwise-stronger filter that loses a witness keeps strictly
fewer elements. -/
theorem length_filter_strict (l : List (Path × Node)) (P Q : Path × Node → Bool)
    (h : ∀ kv, P kv = true → Q kv = true) (kv₀ : Path × Node)
    (hmem : kv₀ ∈ l) (hP : P kv₀ = false) (hQ : Q kv₀ = true) :
    (l.filter P).length < (l.filter Q).length := by
  induction l with
  | nil => simp at hmem
  | cons hd tl ih =>
    rw [List.filter_cons, List.filter_cons]
    rcases List.mem_cons.mp hmem with rfl | hmem'
    · simp only [hP, hQ, if_true, Bool.false_eq_true, if_false, List.length_cons]
      have := length_filter_mono tl P Q h
      omega
    · have hlt := ih hmem'
      cases hPh : P hd with
      | true =>
        have hQh := h hd hPh
        simp only [hPh, hQh, if_true, List.length_cons]
        omega
      | false =>
        cases hQh : Q hd with
        | true =>
          simp only [hPh, hQh, if_true, Bool.false_eq_true, if_false,
            List.length_cons]
          omega
        | false =>
          simp only [hPh, hQh, Bool.false_eq_true, if_false]
          exact hlt

/-- Visiting a key that is present in the map and not yet visited
strictly shrinks the unvisited remainder. -/
theorem length_filter_cons_lt (l : List (Path × Node)) (p : Path)
    (visited : List Path) (n : Node) (hl : lookup l p = some n)
    (hv : p ∉ visited) :
    (l.filter fun kv => decide (kv.1 ∉ p :: visited)).length <
      (l.filter fun kv => decide (kv.1 ∉ visited)).length := by
  refine length_filter_strict _ _ _ (fun kv hkv => ?_) (p, n) (lookup_mem hl) ?_ ?_
  · have := of_decide_eq_true hkv
    exact decide_eq_true fun hmem => this (List.mem_cons_of_mem _ hmem)
  · simp
  · simpa using hv

/-- The symlink-resolution loop always yields a result when given more
fuel than there are unvisited keys: each iteration visits a fresh key of
the map.  This is the termination argument for `recurse_symlink`. -/
theorem recurseSymlinkAux_sufficient_fuel (files : List (Path × Node)) :
    ∀ (fuel : Nat) (visited : List Path) (p : Path),
      (files.filter fun kv => decide (kv.1 ∉ visited)).length < fuel →
      recurseSymlinkAux files fuel visited p ≠ none := by
  intro fuel
  induction fuel with
  | zero => intro visited p hbound; exact absurd hbound (Nat.not_lt_zero _)
  | succ fuel ih =>
    intro visited p hbound
    rw [recurseSymlinkAux]
    cases hl : lookup files p with
    | none => simp
    | some node =>
      cases node with
      | dir d => simp
      | file f => simp
      | symlink l =>
        by_cases hv : p ∈ visited
        · simp [hv]
        · simp only [hv, if_false]
          apply ih
          calc (files.filter fun kv => decide (kv.1 ∉ p :: visited)).length
              < (files.filter fun kv => decide (kv.1 ∉ visited)).length :=
                length_filter_cons_lt files p visited _ hl hv
            _ ≤ fuel := Nat.lt_succ_iff.mp hbound

/-- C6: symlink resolution is total — at the fuel `recurse_symlink` is
run with, the loop always returns a result on every finite namespace —
and any chain that revisits a traversed path (here the general two-node
cycle `A → B → A`, which covers the self-loop `A → A`) makes
`recurse_symlink` fail with the generic loop error of kind `Other`, and
with it every dereferencing read or write through such a path, rather
than diverging. -/
theorem claim6_recurse_symlink_total_and_loop :
    (∀ (s : Registry) (p : Path),
        recurseSymlinkAux s.files (s.files.length + 1) [] p ≠ none) ∧
    (∀ (s : Registry) (A : Path) (lA lB : Symlink),
        lookup s.files A = some (.symlink lA) →
        lookup s.files lA.source = some (.symlink lB) →
        lB.source = A →
        s.recurseSymlink A = .error .other ∧
        s.readFile A = .error .other ∧
        ∀ buf : List Nat, s.writeFile A buf = (s, .error .other)) := by
  constructor
  · intro s p
    apply recurseSymlinkAux_sufficient_fuel
    have hfull :
        (s.files.filter fun kv => decide (kv.1 ∉ ([] : List Path))).length =
          s.files.length := by
      simp
    rw [hfull]
    omega
  · intro s A lA lB hA hB hBA
    have hrec : s.recurseSymlink A = .error .other := by
      unfold Registry.recurseSymlink
      by_cases hself : lA.source = A
      · have hmem : (A, Node.symlink lA) ∈ s.files := lookup_mem hA
        have hlen : 0 < s.files.length := List.length_pos_of_mem hmem
        obtain ⟨m, hm⟩ : ∃ m, s.files.length = m + 1 :=
          ⟨s.files.length - 1, by omega⟩
        rw [hm]
        simp [recurseSymlinkAux, hA, hself]
      · have hlen : 2 ≤ s.files.length :=
          two_le_length_of_lookup_ne hA hB (fun hEq => hself hEq.symm)
        obtain ⟨m, hm⟩ : ∃ m, s.files.length = m + 2 :=
          ⟨s.files.length - 2, by omega⟩
        rw [hm]
        simp [recurseSymlinkAux, hA, hB, hBA, hself, List.mem_cons]
    refine ⟨hrec, ?_, ?_⟩
    · simp [Registry.readFile, Registry.getFile, hA, hrec]
    · intro buf
      simp [Registry.writeFile, Registry.getFileMutPath, hA, hrec]

/-- Witness for C6 on the concrete cycle `/a → /b → /a`. -/
theorem claim6_witness :
    c6S.recurseSymlink ["a"] = .error .other ∧
    c6S.readFile ["a"] = .error .other ∧
    c6S.writeFile ["a"] [1] = (c6S, .error .other) ∧
    recurseSymlinkAux c6S.files (c6S.files.length + 1) [] ["a"] ≠ none := by
  have h := claim6_recurse_symlink_total_and_loop
  have h2 := h.2 c6S ["a"] ⟨0o644, ["b"]⟩ ⟨0o644, ["a"]⟩ rfl rfl rfl
  exact ⟨h2.1, h2.2.1, h2.2.2 [1], h.1 c6S ["a"]⟩

/-- C9: when the destination key is already present, `create_dir` and
`create_file` fail with `AlreadyExists` and leave the namespace
untouched, whatever the parent's state: the occupancy check in `insert`
(line 415) precedes the parent lookup. -/
theorem claim9_create_existing_already_exists (s : Registry) (p : Path) (n : Node)
    (buf : List Nat) (h : lookup s.files p = some n) :
    s.createDir p = (s, .error .alreadyExists) ∧
    s.createFile p buf = (s, .error .alreadyExists) := by
  constructor <;> simp [Registry.createDir, Registry.createFile, Registry.insert, h]

/-- Witness for C9 at a concrete registry. -/
theorem claim9_witness :
    c5S.createDir ["f"] = (c5S, .error .alreadyExists) ∧
    c5S.createFile ["f"] [1, 2] = (c5S, .error .alreadyExists) :=
  claim9_create_existing_already_exists c5S ["f"] (.file ⟨0o644, []⟩) [1, 2] rfl

/-- C10: `len` is total (it is a plain function into `Nat`), returns 0
on an absent path, 4096 for a directory, 34 for a symlink without
dereferencing it, and the byte length of the contents for a file. -/
theorem claim10_len_cases (s : Registry) (p : Path) :
    (lookup s.files p = none → s.len p = 0) ∧
    (∀ d : Dir, lookup s.files p = some (.dir d) → s.len p = 4096) ∧
    (∀ l : Symlink, lookup s.files p = some (.symlink l) → s.len p = 34) ∧
    (∀ f : File, lookup s.files p = some (.file f) → s.len p = f.contents.length) := by
  refine ⟨fun h => ?_, fun d h => ?_, fun l h => ?_, fun f h => ?_⟩ <;>
    simp [Registry.len, h]

/-- Witness for C10: the symlink, absent-path and directory cases at a
concrete registry (the symlink is dangling, yet `len` still answers 34
because it never dereferences). -/
theorem claim10_witness :
    (c10S.len ["a"] = 34 ∧ c10S.len ["b"] = 0 ∧ c10S.len [] = 4096) :=
  ⟨(claim10_len_cases c10S ["a"]).2.2.1 ⟨0o644, ["b"]⟩ rfl,
   (claim10_len_cases c10S ["b"]).1 rfl,
   (claim10_len_cases c10S []).2.1 ⟨0o644⟩ rfl⟩

end Fs
